import Mathlib

/-!
Shallow embedding of `FFBP/vis_utils.py` (an ipywidgets/matplotlib
visualization module) together with proofs about its behaviour.

Python dictionaries are modelled as association lists kept in insertion
order, numpy arrays as a shape together with a flat data list, and code
that can raise an exception as `Except String`-valued functions.
-/

namespace FFBP

/-- Python `dict` lookup (`d[k]` on the reading side): first binding wins;
bindings are kept unique by `dictInsert`. -/
def dictFind? {α : Type} (d : List (String × α)) (k : String) : Option α :=
  match d with
  | [] => none
  | (k', v) :: rest => if k' = k then some v else dictFind? rest k

/-- Python `dict` assignment `d[k] = v`: replace the binding in place if the
key is present, otherwise append it (insertion order). -/
def dictInsert {α : Type} (d : List (String × α)) (k : String) (v : α) :
    List (String × α) :=
  match d with
  | [] => [(k, v)]
  | (k', v') :: rest =>
      if k' = k then (k, v) :: rest else (k', v') :: dictInsert rest k v

/-- Python's substring test `sub in s`. -/
def strContains (s sub : String) : Bool :=
  s.data.tails.any (fun t => sub.data.isPrefixOf t)

deriving instance DecidableEq for Except

/-- A numpy `ndarray`: a shape and the row-major flat data. -/
structure NDArray where
  shape : List Nat
  data : List Int

deriving DecidableEq

/-- `ndarray.ndim`. -/
def NDArray.ndim (a : NDArray) : Nat := a.shape.length

/-- Shape/data consistency: the flat data has exactly one value per cell. -/
def NDArray.wf (a : NDArray) : Prop := a.data.length = a.shape.prod

instance (a : NDArray) : Decidable a.wf := by unfold NDArray.wf; infer_instance

/-- Row-major rank of a multi-index under a shape. -/
def flattenIndex : List Nat → List Nat → Nat
  | _, [] => 0
  | [], _ => 0
  | _ :: ss, i :: is => i * ss.prod + flattenIndex ss is

/-- Inverse of `flattenIndex`: the multi-index of a row-major rank. -/
def unflattenIndex : List Nat → Nat → List Nat
  | [], _ => []
  | _ :: ss, i => (i / ss.prod) :: unflattenIndex ss (i % ss.prod)

/-- numpy `a.T`: reverse the order of the axes. -/
def transposeND (a : NDArray) : NDArray :=
  ⟨a.shape.reverse,
   (List.range a.shape.reverse.prod).map fun i =>
     a.data.getD (flattenIndex a.shape ((unflattenIndex a.shape.reverse i).reverse)) 0⟩

/-- numpy `np.expand_dims(a, axis=1)`: insert a length-1 axis at position 1. -/
def expand_dims1 (a : NDArray) : NDArray :=
  ⟨a.shape.take 1 ++ 1 :: a.shape.drop 1, a.data⟩

/-- numpy `a[p]`: slice off the leading axis at index `p`. -/
def sliceAt (p : Nat) (a : NDArray) : NDArray :=
  ⟨a.shape.tail, (a.data.drop (p * a.shape.tail.prod)).take a.shape.tail.prod⟩

/-- `_draw_layers`, line `if k == 'weights': data = data.T`. -/
def drawStep1 (k : String) (d : NDArray) : NDArray :=
  if k = "weights" then transposeND d else d

/-- `_draw_layers`, line `if 'biases' in k: data = np.expand_dims(data, axis=1)`,
applied after `drawStep1`. -/
def drawStep2 (k : String) (d : NDArray) : NDArray :=
  if strContains k "biases" then expand_dims1 (drawStep1 k d) else drawStep1 k d

/-- The whole per-key body of the drawing loop of `_draw_layers`: after the
`weights`/`biases` preprocessing, a tensor with more than 2 dimensions is
sliced at the pattern index (raising `IndexError` when out of bounds, as
numpy does) and, unless the key is `input_`, transposed. -/
def drawTransform (k : String) (pind : Nat) (d : NDArray) : Except String NDArray :=
  let d2 := drawStep2 k d
  if 2 < d2.ndim then
    if pind < d2.shape.headD 0 then
      let d3 := sliceAt pind d2
      Except.ok (if k ≠ "input_" then transposeND d3 else d3)
    else Except.error "IndexError"
  else Except.ok d2

/-- One reshaping-or-transposing step: numpy transpose, `expand_dims` at
axis 1, or slicing off the leading axis. -/
inductive ReshapeStep : NDArray → NDArray → Prop
  | transpose (a : NDArray) : ReshapeStep a (transposeND a)
  | expand (a : NDArray) : ReshapeStep a (expand_dims1 a)
  | slice (p : Nat) (a : NDArray) : ReshapeStep a (sliceAt p a)

/-- Reflexive-transitive closure of `ReshapeStep`: the output is obtained
from the input by reshaping and transposing alone. -/
inductive ReshapeOnly : NDArray → NDArray → Prop
  | refl (a : NDArray) : ReshapeOnly a a
  | tail {a b c : NDArray} : ReshapeOnly a b → ReshapeStep b c → ReshapeOnly a c

/-- A value stored in a run-log snapshot dictionary: the epoch number
(`enum`), an array (`loss`, `target`), or a layer dictionary of named
tensors. -/
inductive SnapEntry where
  | int (n : Int)
  | arr (a : NDArray)
  | ldict (d : List (String × NDArray))

deriving DecidableEq

/-- One epoch snapshot: a Python dictionary. -/
def Snapshot : Type := List (String × SnapEntry)

instance : DecidableEq Snapshot := by unfold Snapshot; infer_instance

/-- Dictionary read `snap[k]`, raising `KeyError` when the key is absent. -/
def snapGet (snap : Snapshot) (k : String) : Except String SnapEntry :=
  match dictFind? snap k with
  | some v => Except.ok v
  | none => Except.error ("KeyError: " ++ k)

def getInt : SnapEntry → Except String Int
  | .int n => Except.ok n
  | _ => Except.error "TypeError: int expected"

def getArr : SnapEntry → Except String NDArray
  | .arr a => Except.ok a
  | _ => Except.error "TypeError: array expected"

def getLdict : SnapEntry → Except String (List (String × NDArray))
  | .ldict d => Except.ok d
  | _ => Except.error "TypeError: dict expected"

/-- `snap['loss'][pind]` followed by `'{:.5f}'.format(...)`: indexing the
1-D loss array, raising when the index is out of bounds or the value is
not a scalar. -/
def scalarAt (a : NDArray) (p : Nat) : Except String Int :=
  if a.ndim = 1 then
    if p < a.shape.headD 0 then Except.ok (a.data.getD p 0)
    else Except.error "IndexError"
  else Except.error "TypeError: a scalar is required"

/-- The first loop of `_draw_layers`: `snap_ldicts[ln] = snap[ln]` followed
by `snap_ldicts[ln]['targets'] = targ` for each layer name.  Because
`snap_ldicts[ln]` aliases `snap[ln]`, the `targets` insertion also mutates
the snapshot; the function returns the accumulated `snap_ldicts` together
with the mutated snapshot. -/
def buildLdicts (snap : Snapshot) (layer_names : List String) (targ : NDArray) :
    Except String (List (String × List (String × NDArray)) × Snapshot) :=
  match layer_names with
  | [] => Except.ok ([], snap)
  | ln :: rest => do
      let e ← snapGet snap ln
      let ld ← getLdict e
      let ld' := dictInsert ld "targets" targ
      let snap' : Snapshot := dictInsert snap ln (.ldict ld')
      let (m, snapF) ← buildLdicts snap' rest targ
      Except.ok (dictInsert m ln ld', snapF)

/-- The state of a matplotlib image after `img.set_data(data)`,
`img.cmap = get_cmap(colormap)`, `img.norm.vmin = vrange[0]`,
`img.norm.vmax = vrange[1]`. -/
structure ImgState where
  imgData : NDArray
  cmap : String
  vmin : Int
  vmax : Int

deriving DecidableEq

/-- The inner loop of `_draw_layers`: `for k, img in img_dict.items()`. -/
def drawGrid (ld : List (String × NDArray)) (keys : List String)
    (colormap : String) (vrange : Int × Int) (pind : Nat) :
    Except String (List (String × ImgState)) :=
  match keys with
  | [] => Except.ok []
  | k :: rest => do
      let data ← (match dictFind? ld k with
        | some a => Except.ok a
        | none => Except.error ("KeyError: " ++ k))
      let d ← drawTransform k pind data
      let imgs ← drawGrid ld rest colormap vrange pind
      Except.ok ((k, ⟨d, colormap, vrange.1, vrange.2⟩) :: imgs)

/-- The outer loop of `_draw_layers`:
`for img_dict, layer_name in zip(img_dicts, layer_names)`. -/
def drawLoop (ldicts : List (String × List (String × NDArray)))
    (img_dicts : List (List String)) (layer_names : List String)
    (colormap : String) (vrange : Int × Int) (pind : Nat) :
    Except String (List (List (String × ImgState))) :=
  match img_dicts, layer_names with
  | kd :: kds, ln :: lns => do
      let ld ← (match dictFind? ldicts ln with
        | some d => Except.ok d
        | none => Except.error ("KeyError: " ++ ln))
      let imgs ← drawGrid ld kd colormap vrange pind
      let restI ← drawLoop ldicts kds lns colormap vrange pind
      Except.ok (imgs :: restI)
  | _, _ => Except.ok []

/-- The observable outcome of one `_draw_layers` call: the printed epoch
number and loss, the data written into every image, and the final contents
of the loaded run-log snapshots (after the in-place `targets` insertion). -/
structure DrawOutput where
  enum : Int
  lossVal : Int
  images : List (List (String × ImgState))
  testDataAfter : List Snapshot

deriving DecidableEq

/-- `_draw_layers(runlog_path, img_dicts, layer_names, colormap, vrange,
tind, pind)`.  The external collaborator `load_test_data` is abstracted by
its result (`testData`), an epoch-indexed list of snapshots or a raised
exception; image dictionaries are abstracted by their key lists. -/
def _draw_layers (testData : Except String (List Snapshot))
    (img_dicts : List (List String)) (layer_names : List String)
    (colormap : String) (vrange : Int × Int) (tind pind : Nat) :
    Except String DrawOutput := do
  let td ← testData
  let snap ← (match td.get? tind with
    | some s => Except.ok s
    | none => Except.error "IndexError: tind")
  let enum ← (snapGet snap "enum") >>= getInt
  let lossArr ← (snapGet snap "loss") >>= getArr
  let lossVal ← scalarAt lossArr pind
  let targ ← (snapGet snap "target") >>= getArr
  let (ldicts, snapF) ← buildLdicts snap layer_names targ
  let images ← drawLoop ldicts img_dicts layer_names colormap vrange pind
  Except.ok ⟨enum, lossVal, images, td.set tind snapF⟩

/-- Does an optional snapshot entry hold a layer dictionary? -/
def entryIsLdictB : Option SnapEntry → Bool
  | some (.ldict _) => true
  | _ => false

/-- A single image key is servable from a layer dictionary: the key is
present and, when the tensor still has more than 2 dimensions after the
`weights`/`biases` preprocessing, the pattern index is in bounds of its
leading (pattern) axis. -/
def keyOkB (ld : List (String × NDArray)) (pind : Nat) (k : String) : Bool :=
  match dictFind? ld k with
  | some a =>
      !(decide (2 < (drawStep2 k a).ndim))
        || decide (pind < (drawStep2 k a).shape.headD 0)
  | none => false

/-- The collaborator contract of the spec, as a decidable check on one
snapshot: it contains `enum`, a pattern-indexed `loss` with `pind` in
range, `target`, and a layer dictionary for every displayed layer name
holding every tensor key of that layer's image grid. -/
def snapContractB (snap : Snapshot) (layer_names : List String)
    (img_dicts : List (List String)) (pind : Nat) : Bool :=
  (match dictFind? snap "enum" with
    | some (.int _) => true
    | _ => false) &&
  (match dictFind? snap "loss" with
    | some (.arr la) => decide (la.ndim = 1) && decide (pind < la.shape.headD 0)
    | _ => false) &&
  (match dictFind? snap "target" with
    | some (.arr tg) =>
        layer_names.all (fun ln => entryIsLdictB (dictFind? snap ln)) &&
        (img_dicts.zip layer_names).all (fun pr =>
          match dictFind? snap pr.2 with
          | some (.ldict ld) =>
              pr.1.all (fun k => keyOkB (dictInsert ld "targets" tg) pind k)
          | _ => false)
    | _ => false)

/-- `os.path.join` for a directory path and a plain filename. -/
def joinp (a b : String) : String := a ++ "/" ++ b

/-- An ipywidgets `Dropdown`: label/value options and the selected value. -/
structure Dropdown where
  options : List (String × String)
  description : String
  value : String

deriving DecidableEq

/-- `_make_logs_widget(log_path, layout)`: the run-log dropdown.  The
`os.listdir(log_path)` result is abstracted by `listing`; the widget holds
the `.pkl`-matching filenames mapped to their joined paths, and its value is
`runlogs[filenames[0]]` (an `IndexError` escapes when no filename
matches). -/
def _make_logs_widget (log_path : String) (listing : List String) :
    Except String Dropdown :=
  let filenames := listing.filter (fun f => strContains f ".pkl")
  let runlogs := filenames.foldl (fun d f => dictInsert d f (joinp log_path f)) []
  match filenames with
  | [] => Except.error "IndexError: list index out of range"
  | f0 :: _ =>
      match dictFind? runlogs f0 with
      | some v => Except.ok ⟨runlogs, "Run log: ", v⟩
      | none => Except.error ("KeyError: " ++ f0)

/-- An ipywidgets `IntSlider`. -/
structure IntSlider where
  value : Int
  min : Int
  max : Int
  step : Int

deriving DecidableEq

/-- `view_layers`: `widgets.IntSlider(value=epochs[0], min=0,
max=len(epochs) - 1, step=1, description='Step index: ', ...)`; the
`epochs[0]` access raises on an empty epoch list. -/
def step_widget (epochs : List Int) : Except String IntSlider :=
  match epochs with
  | [] => Except.error "IndexError: list index out of range"
  | e0 :: _ => Except.ok ⟨e0, 0, (epochs.length : Int) - 1, 1⟩

/-- An ipywidgets `IntRangeSlider` (the `step=.5` float of the source is not
modelled). -/
structure IntRangeSlider where
  value : Int × Int
  min : Int
  max : Int

deriving DecidableEq

/-- `view_layers`: `widgets.IntRangeSlider(value=[-1, 1], min=-5, max=5, ...)`. -/
def vrange_widget : IntRangeSlider := ⟨(-1, 1), -5, 5⟩

/-- Python `sorted` on strings (code-point order). -/
def pysorted (l : List String) : List String :=
  l.insertionSort (fun a b => a ≤ b)

/-- `view_layers`: the colormap dropdown built from the sorted name list. -/
def cmap_widget : Dropdown :=
  ⟨(pysorted ["BrBG", "bwr", "coolwarm", "PiYG", "PRGn", "PuOr", "RdBu", "RdGy",
      "RdYlBu", "RdYlGn", "seismic"]).map (fun s => (s, s)),
   "Colors: ", "coolwarm"⟩

/-- An ipywidgets `Select`: label/index options, selected index, shown rows. -/
structure SelectWidget where
  options : List (String × Nat)
  value : Nat
  rows : Nat

deriving DecidableEq

/-- `view_layers`: the `options_map` dictionary,
`for i, pattern_option in enumerate(pattern_options): options_map[pattern_option] = i`. -/
def options_map (pattern_options : List String) : List (String × Nat) :=
  pattern_options.enum.foldl (fun d p => dictInsert d p.2 p.1) []

/-- `view_layers`: `widgets.Select(options=options_map, value=0,
rows=min(10, len(pattern_options)), description='Pattern: ', ...)`. -/
def pattern_widget (pattern_options : List String) : SelectWidget :=
  ⟨options_map pattern_options, 0, min 10 pattern_options.length⟩

/-- One entry of `ax_params` in `_make_axes_grid`: axes-grid coordinates,
image dimensions `(rows, cols)`, and the axis title. -/
structure AxParam where
  coords : Nat × Nat
  dims : Nat × Nat
  title : String

deriving DecidableEq

/-- `_make_axes_grid`: the `ax_params` dictionary in insertion order,
including the `targets` entry when `target` is set, the gradient entries
when `mode > 0`, and the cumulative-gradient entries when additionally
`mode > 1`. -/
def ax_params (inp_size layer_size : Nat) (mode : Int) (target : Bool) :
    List (String × AxParam) :=
  let t : Nat := if target then 1 else 0
  let base : List (String × AxParam) :=
    [("input_", ⟨(0, 0), (1, inp_size), "input"⟩),
     ("weights", ⟨(0, 2), (layer_size, inp_size), "W"⟩),
     ("biases", ⟨(2, 2), (layer_size, 1), "b"⟩),
     ("net_input", ⟨(4, 2), (layer_size, 1), "net"⟩),
     ("output", ⟨(6, 2), (layer_size, 1), "a"⟩)]
  let base :=
    if target then base ++ [("targets", ⟨(8, 2), (layer_size, 1), "t"⟩)] else base
  if 0 < mode then
    let base := base ++
      [("gweights", ⟨(9 + 2 * t, 2), (layer_size, inp_size), "W\x27"⟩),
       ("gbiases", ⟨(11 + 2 * t, 2), (layer_size, 1), "b\x27"⟩),
       ("gnet_input", ⟨(13 + 2 * t, 2), (layer_size, 1), "net\x27"⟩),
       ("goutput", ⟨(15 + 2 * t, 2), (layer_size, 1), "a\x27"⟩)]
    if 1 < mode then
      base ++
        [("sgweights", ⟨(17 + 2 * t, 2), (layer_size, inp_size), "sW\x27"⟩),
         ("sgbiases", ⟨(19 + 2 * t, 2), (layer_size, 1), "sb\x27"⟩)]
    else base
  else base

/-- `np.zeros(img_dims)` for a 2-tuple of dimensions. -/
def zerosND (dims : Nat × Nat) : NDArray :=
  ⟨[dims.1, dims.2], List.replicate (dims.1 * dims.2) 0⟩

/-- `_make_axes_grid`: the returned `img_dict`, one image per `ax_params`
entry, each initialized by `ax.imshow(np.zeros(img_dims))`. -/
def _make_axes_grid (inp_size layer_size : Nat) (mode : Int) (target : Bool) :
    List (String × NDArray) :=
  (ax_params inp_size layer_size mode target).map (fun p => (p.1, zerosND p.2.dims))

/-- `view_layers`: `disp_targs = [False for l in layer_names[:-1]] + [True]`. -/
def disp_targs (layer_names : List String) : List Bool :=
  layer_names.dropLast.map (fun _ => false) ++ [true]

/-- `view_layers`: the per-layer axes grids, one `_make_axes_grid` call per
`zip(layer_names, disp_targs)` entry; the collaborator `get_layer_dims` is
abstracted by `dims`, giving `(inp_size, layer_size)` per layer name. -/
def view_layers_grids (layer_names : List String) (dims : String → Nat × Nat)
    (mode : Int) : List (List (String × NDArray)) :=
  (layer_names.zip (disp_targs layer_names)).map
    (fun p => _make_axes_grid (dims p.1).1 (dims p.1).2 mode p.2)

/-- The kind of widget wired to one argument of `_draw_layers`. -/
inductive ControlKind where
  | dropdownC
  | rangeSliderC
  | sliderC
  | selectC
  | fixedC

deriving DecidableEq

/-- `view_layers`: the `controls_dict` handed to
`widgets.interactive_output`, by `_draw_layers` parameter name and widget
kind (`widgets.fixed` marks non-interactive arguments). -/
def controls_dict : List (String × ControlKind) :=
  [("runlog_path", .dropdownC), ("img_dicts", .fixedC), ("layer_names", .fixedC),
   ("colormap", .dropdownC), ("vrange", .rangeSliderC), ("tind", .sliderC),
   ("pind", .selectC)]

/-- The parameter names of `_draw_layers`, in order. -/
def draw_layers_params : List String :=
  ["runlog_path", "img_dicts", "layer_names", "colormap", "vrange", "tind", "pind"]

/-- `view_layers` line `widgets.interactive_output(f=_draw_layers,
controls=controls_dict)`: the function wired to the controls. -/
def view_layers_render := @_draw_layers

/-- A concrete run-log snapshot used as a test vector. -/
def snapEx : Snapshot :=
  [("enum", .int 3),
   ("loss", .arr ⟨[2], [7, 9]⟩),
   ("target", .arr ⟨[1], [4]⟩),
   ("hidden", .ldict
      [("weights", ⟨[1, 2], [10, 20]⟩), ("biases", ⟨[2], [1, 2]⟩),
       ("input_", ⟨[2, 1, 1], [5, 6]⟩), ("output", ⟨[2, 2], [8, 8, 9, 9]⟩)])]

/-- A concrete one-epoch run log. -/
def tdEx : List Snapshot := [snapEx]

/-- The image-grid key lists matching `snapEx`'s single layer. -/
def imgKeysEx : List (List String) :=
  [["input_", "weights", "biases", "output", "targets"]]

theorem dictFind?_insert_self {α : Type} (d : List (String × α)) (k : String) (v : α) :
    dictFind? (dictInsert d k v) k = some v := by
  induction d with
  | nil => simp [dictFind?, dictInsert]
  | cons p rest ih =>
      by_cases h : p.1 = k
      · simp [dictInsert, dictFind?, h]
      · simp [dictInsert, dictFind?, h, ih]

theorem dictFind?_insert_ne {α : Type} (d : List (String × α)) (k k' : String) (v : α)
    (h : k' ≠ k) : dictFind? (dictInsert d k v) k' = dictFind? d k' := by
  induction d with
  | nil => simp [dictFind?, dictInsert, Ne.symm h]
  | cons p rest ih =>
      by_cases hp : p.1 = k
      · simp [dictInsert, dictFind?, hp, Ne.symm h]
      · simp [dictInsert, dictFind?, hp, ih]

theorem unflattenIndex_lt (shape : List Nat) (i : Nat) (h : i < shape.prod) :
    List.Forall₂ (· < ·) (unflattenIndex shape i) shape := by
  induction shape generalizing i with
  | nil => exact List.Forall₂.nil
  | cons s ss ih =>
      simp only [List.prod_cons] at h
      have hP : 0 < ss.prod := by
        rcases Nat.eq_zero_or_pos ss.prod with h0 | h0
        · rw [h0, Nat.mul_zero] at h; exact absurd h (by omega)
        · exact h0
      refine List.Forall₂.cons ?_ (ih _ (Nat.mod_lt _ hP))
      exact (Nat.div_lt_iff_lt_mul hP).mpr (by simpa [Nat.mul_comm] using h)

theorem flattenIndex_lt (shape ix : List Nat)
    (h : List.Forall₂ (· < ·) ix shape) : flattenIndex shape ix < shape.prod := by
  induction h with
  | nil => simp [flattenIndex]
  | @cons i s is ss hlt _ ih =>
      simp only [flattenIndex, List.prod_cons]
      calc i * ss.prod + flattenIndex ss is
          < i * ss.prod + ss.prod := by omega
        _ = (i + 1) * ss.prod := by ring
        _ ≤ s * ss.prod := Nat.mul_le_mul_right _ hlt

theorem getD_mem_of_lt {l : List Int} {i : Nat} (h : i < l.length) :
    l.getD i 0 ∈ l := by
  induction l generalizing i with
  | nil => simp at h
  | cons x xs ih =>
      cases i with
      | zero => simp
      | succ j =>
          simp only [List.getD_cons_succ]
          exact List.mem_cons_of_mem _ (ih (by simpa using h))

theorem transposeND_wf (a : NDArray) : (transposeND a).wf := by
  simp [transposeND, NDArray.wf]

theorem transposeND_mem (a : NDArray) (hwf : a.wf) :
    ∀ x ∈ (transposeND a).data, x ∈ a.data := by
  intro x hx
  simp only [transposeND, List.mem_map, List.mem_range] at hx
  obtain ⟨i, hi, rfl⟩ := hx
  have hi' : i < a.shape.prod := by simpa [List.prod_reverse] using hi
  have h1 : List.Forall₂ (· < ·) (unflattenIndex a.shape.reverse i) a.shape.reverse :=
    unflattenIndex_lt _ _ (by simpa [List.prod_reverse] using hi')
  have h2 : List.Forall₂ (· < ·) ((unflattenIndex a.shape.reverse i).reverse) a.shape := by
    simpa using List.rel_reverse h1
  have h3 := flattenIndex_lt _ _ h2
  have hl : a.data.length = a.shape.prod := hwf
  exact getD_mem_of_lt (by omega)

theorem expand_dims1_wf (a : NDArray) (hwf : a.wf) : (expand_dims1 a).wf := by
  unfold NDArray.wf at *
  simp only [expand_dims1, List.prod_append, List.prod_cons, one_mul]
  rw [hwf, ← List.prod_take_mul_prod_drop a.shape 1]

theorem sliceAt_mem (p : Nat) (a : NDArray) :
    ∀ x ∈ (sliceAt p a).data, x ∈ a.data := by
  intro x hx
  exact List.drop_subset _ _ (List.take_subset _ _ hx)

theorem sliceAt_wf (p : Nat) (a : NDArray) (hwf : a.wf)
    (hp : p < a.shape.headD 0) : (sliceAt p a).wf := by
  unfold NDArray.wf at *
  cases hs : a.shape with
  | nil => simp [hs] at hp
  | cons s ss =>
      simp only [hs, List.headD_cons] at hp
      simp only [sliceAt, hs, List.tail_cons, List.length_take, List.length_drop]
      rw [hwf, hs]
      simp only [List.prod_cons]
      have : p * ss.prod + ss.prod ≤ s * ss.prod := by
        calc p * ss.prod + ss.prod = (p + 1) * ss.prod := by ring
          _ ≤ s * ss.prod := Nat.mul_le_mul_right _ hp
      omega

theorem drawStep1_wf (k : String) (d : NDArray) (hwf : d.wf) : (drawStep1 k d).wf := by
  unfold drawStep1
  split
  · exact transposeND_wf d
  · exact hwf

theorem drawStep1_mem (k : String) (d : NDArray) (hwf : d.wf) :
    ∀ x ∈ (drawStep1 k d).data, x ∈ d.data := by
  unfold drawStep1
  split
  · exact transposeND_mem d hwf
  · intro x hx; exact hx

theorem drawStep2_wf (k : String) (d : NDArray) (hwf : d.wf) : (drawStep2 k d).wf := by
  unfold drawStep2
  split
  · exact expand_dims1_wf _ (drawStep1_wf k d hwf)
  · exact drawStep1_wf k d hwf

theorem drawStep2_mem (k : String) (d : NDArray) (hwf : d.wf) :
    ∀ x ∈ (drawStep2 k d).data, x ∈ d.data := by
  unfold drawStep2
  split
  · exact drawStep1_mem k d hwf
  · exact drawStep1_mem k d hwf

theorem drawStep1_reshapeOnly (k : String) (d : NDArray) :
    ReshapeOnly d (drawStep1 k d) := by
  unfold drawStep1
  split
  · exact ReshapeOnly.tail (ReshapeOnly.refl d) (ReshapeStep.transpose d)
  · exact ReshapeOnly.refl d

theorem drawStep2_reshapeOnly (k : String) (d : NDArray) :
    ReshapeOnly d (drawStep2 k d) := by
  unfold drawStep2
  split
  · exact ReshapeOnly.tail (drawStep1_reshapeOnly k d) (ReshapeStep.expand _)
  · exact drawStep1_reshapeOnly k d

/-- C1: in `_draw_layers` the only transformations applied to a loaded layer
tensor before it is handed to an image are reshaping and transposing: the
`weights` tensor is transposed, every key containing `biases` gets a length-1
second axis added, any tensor with more than 2 dimensions is sliced at the
pattern index `pind` and, unless its key is `input_`, transposed; no other
arithmetic touches the data values (every output value is one of the input
values, unchanged). -/
theorem c1_draw_transform_reshape_only (k : String) (pind : Nat) (d : NDArray)
    (hwf : d.wf)
    (hp : 2 < (drawStep2 k d).ndim → pind < (drawStep2 k d).shape.headD 0) :
    ∃ out, drawTransform k pind d = Except.ok out
      ∧ ReshapeOnly d out
      ∧ (∀ x ∈ out.data, x ∈ d.data)
      ∧ drawStep1 k d = (if k = "weights" then transposeND d else d)
      ∧ drawStep2 k d =
          (if strContains k "biases" then expand_dims1 (drawStep1 k d)
           else drawStep1 k d)
      ∧ out = (if 2 < (drawStep2 k d).ndim then
                 (if k ≠ "input_" then transposeND (sliceAt pind (drawStep2 k d))
                  else sliceAt pind (drawStep2 k d))
               else drawStep2 k d) := by
  have hwf2 := drawStep2_wf k d hwf
  by_cases hnd : 2 < (drawStep2 k d).ndim
  · have hb := hp hnd
    refine ⟨(if k ≠ "input_" then transposeND (sliceAt pind (drawStep2 k d))
             else sliceAt pind (drawStep2 k d)), ?_, ?_, ?_, rfl, rfl, by simp [hnd]⟩
    · have hb' : pind < (drawStep2 k d).shape.head?.getD 0 := by simpa using hb
      simp [drawTransform, hnd, hb']
    · split
      · exact ReshapeOnly.tail
          (ReshapeOnly.tail (drawStep2_reshapeOnly k d) (ReshapeStep.slice pind _))
          (ReshapeStep.transpose _)
      · exact ReshapeOnly.tail (drawStep2_reshapeOnly k d) (ReshapeStep.slice pind _)
    · intro x hx
      apply drawStep2_mem k d hwf
      split at hx
      · exact sliceAt_mem pind _ _ (transposeND_mem _ (sliceAt_wf pind _ hwf2 hb) x hx)
      · exact sliceAt_mem pind _ _ hx
  · refine ⟨drawStep2 k d, ?_, drawStep2_reshapeOnly k d, drawStep2_mem k d hwf,
      rfl, rfl, by simp [hnd]⟩
    simp [drawTransform, hnd]

/-- Witness for C1 at a concrete 2×3 `weights` tensor. -/
theorem c1_witness :
    (NDArray.mk [2, 3] [1, 2, 3, 4, 5, 6]).wf
    ∧ (∃ out, drawTransform "weights" 0 (NDArray.mk [2, 3] [1, 2, 3, 4, 5, 6]) =
          Except.ok out
        ∧ ReshapeOnly (NDArray.mk [2, 3] [1, 2, 3, 4, 5, 6]) out
        ∧ (∀ x ∈ out.data, x ∈ (NDArray.mk [2, 3] [1, 2, 3, 4, 5, 6]).data)
        ∧ drawStep1 "weights" (NDArray.mk [2, 3] [1, 2, 3, 4, 5, 6]) =
            (if "weights" = "weights"
             then transposeND (NDArray.mk [2, 3] [1, 2, 3, 4, 5, 6])
             else NDArray.mk [2, 3] [1, 2, 3, 4, 5, 6])
        ∧ drawStep2 "weights" (NDArray.mk [2, 3] [1, 2, 3, 4, 5, 6]) =
            (if strContains "weights" "biases"
             then expand_dims1 (drawStep1 "weights" (NDArray.mk [2, 3] [1, 2, 3, 4, 5, 6]))
             else drawStep1 "weights" (NDArray.mk [2, 3] [1, 2, 3, 4, 5, 6]))
        ∧ out = (if 2 < (drawStep2 "weights" (NDArray.mk [2, 3] [1, 2, 3, 4, 5, 6])).ndim then
                   (if "weights" ≠ "input_"
                    then transposeND (sliceAt 0
                      (drawStep2 "weights" (NDArray.mk [2, 3] [1, 2, 3, 4, 5, 6])))
                    else sliceAt 0
                      (drawStep2 "weights" (NDArray.mk [2, 3] [1, 2, 3, 4, 5, 6])))
                 else drawStep2 "weights" (NDArray.mk [2, 3] [1, 2, 3, 4, 5, 6]))) :=
  ⟨by decide,
   c1_draw_transform_reshape_only "weights" 0 (NDArray.mk [2, 3] [1, 2, 3, 4, 5, 6])
     (by decide) (by decide)⟩

theorem entryIsLdictB_spec {o : Option SnapEntry} (h : entryIsLdictB o = true) :
    ∃ ld, o = some (.ldict ld) := by
  cases o with
  | none => simp [entryIsLdictB] at h
  | some e =>
      cases e with
      | int n => simp [entryIsLdictB] at h
      | arr a => simp [entryIsLdictB] at h
      | ldict d => exact ⟨d, rfl⟩

theorem keyOkB_spec {ld : List (String × NDArray)} {pind : Nat} {k : String}
    (h : keyOkB ld pind k = true) :
    ∃ a, dictFind? ld k = some a
      ∧ (2 < (drawStep2 k a).ndim → pind < (drawStep2 k a).shape.headD 0) := by
  unfold keyOkB at h
  cases hf : dictFind? ld k with
  | none => rw [hf] at h; simp at h
  | some a =>
      rw [hf] at h
      refine ⟨a, rfl, ?_⟩
      intro hnd
      simp only [Bool.or_eq_true, Bool.not_eq_true', decide_eq_true_eq,
        decide_eq_false_iff_not] at h
      rcases h with h | h
      · exact absurd hnd h
      · exact h

theorem drawTransform_ok (k : String) (pind : Nat) (a : NDArray)
    (h : 2 < (drawStep2 k a).ndim → pind < (drawStep2 k a).shape.headD 0) :
    ∃ r, drawTransform k pind a = Except.ok r := by
  simp only [drawTransform]
  by_cases hnd : 2 < (drawStep2 k a).ndim
  · rw [if_pos hnd, if_pos (h hnd)]
    exact ⟨_, rfl⟩
  · rw [if_neg hnd]
    exact ⟨_, rfl⟩

theorem drawGrid_ok (ld : List (String × NDArray)) (keys : List String)
    (cm : String) (vr : Int × Int) (pind : Nat)
    (h : ∀ k ∈ keys, keyOkB ld pind k = true) :
    ∃ o, drawGrid ld keys cm vr pind = Except.ok o := by
  induction keys with
  | nil => exact ⟨[], rfl⟩
  | cons k rest ih =>
      obtain ⟨a, hf, hb⟩ := keyOkB_spec (h k (by simp))
      obtain ⟨r, hr⟩ := drawTransform_ok k pind a hb
      obtain ⟨o, ho⟩ := ih (fun k' hk' => h k' (by simp [hk']))
      exact ⟨(k, ⟨r, cm, vr.1, vr.2⟩) :: o,
        by simp [drawGrid, hf, hr, ho, Bind.bind, Except.bind]⟩

theorem drawLoop_ok (img_dicts : List (List String)) (layer_names : List String)
    (ldicts : List (String × List (String × NDArray)))
    (cm : String) (vr : Int × Int) (pind : Nat)
    (h : ∀ pr ∈ img_dicts.zip layer_names,
        ∃ ld, dictFind? ldicts pr.2 = some ld ∧ ∀ k ∈ pr.1, keyOkB ld pind k = true) :
    ∃ o, drawLoop ldicts img_dicts layer_names cm vr pind = Except.ok o := by
  induction img_dicts generalizing layer_names with
  | nil => exact ⟨[], rfl⟩
  | cons kd kds ih =>
      cases layer_names with
      | nil => exact ⟨[], rfl⟩
      | cons ln lns =>
          obtain ⟨ld, hf, hks⟩ := h (kd, ln) (by simp)
          obtain ⟨g, hg⟩ := drawGrid_ok ld kd cm vr pind hks
          obtain ⟨o, ho⟩ := ih lns (fun pr hpr => h pr (by simp [hpr]))
          exact ⟨g :: o, by simp [drawLoop, hf, hg, ho, Bind.bind, Except.bind]⟩

theorem buildLdicts_spec (layer_names : List String) (snap : Snapshot)
    (targ : NDArray) (hnd : layer_names.Nodup)
    (h : ∀ ln ∈ layer_names, ∃ ld, dictFind? snap ln = some (.ldict ld)) :
    ∃ m snapF, buildLdicts snap layer_names targ = Except.ok (m, snapF)
      ∧ (∀ ln ∈ layer_names, ∀ ld, dictFind? snap ln = some (.ldict ld) →
           dictFind? m ln = some (dictInsert ld "targets" targ))
      ∧ (∀ k, k ∉ layer_names → dictFind? snapF k = dictFind? snap k)
      ∧ (∀ ln ∈ layer_names, ∀ ld, dictFind? snap ln = some (.ldict ld) →
           dictFind? snapF ln = some (.ldict (dictInsert ld "targets" targ))) := by
  induction layer_names generalizing snap with
  | nil => exact ⟨[], snap, rfl, by simp, fun k _ => rfl, by simp⟩
  | cons ln rest ih =>
      obtain ⟨hnotin, hndrest⟩ := List.nodup_cons.mp hnd
      obtain ⟨ld, hld⟩ := h ln (by simp)
      set ld' := dictInsert ld "targets" targ with hld'
      set snap1 : Snapshot := dictInsert snap ln (.ldict ld') with hsnap1
      have hpres : ∀ r, r ≠ ln → dictFind? snap1 r = dictFind? snap r := by
        intro r hr
        exact dictFind?_insert_ne snap ln r _ hr
      have hrest : ∀ r ∈ rest, ∃ l, dictFind? snap1 r = some (.ldict l) := by
        intro r hr
        obtain ⟨l, hl⟩ := h r (by simp [hr])
        exact ⟨l, by rw [hpres r (fun he => hnotin (he ▸ hr)), hl]⟩
      obtain ⟨m, snapF, heq, hm, hout, hin⟩ := ih snap1 hndrest hrest
      refine ⟨dictInsert m ln ld', snapF, ?_, ?_, ?_, ?_⟩
      · have h1 : snapGet snap ln = Except.ok (.ldict ld) := by simp [snapGet, hld]
        simp [buildLdicts, h1, getLdict, heq, Bind.bind, Except.bind, hld', hsnap1]
      · intro l hl ld0 hld0
        rcases List.mem_cons.mp hl with rfl | hlr
        · rw [hld0] at hld
          cases hld
          simp [dictFind?_insert_self]
        · have hne : l ≠ ln := fun he => hnotin (he ▸ hlr)
          rw [dictFind?_insert_ne m ln l _ hne]
          exact hm l hlr ld0 (by rw [hpres l hne, hld0])
      · intro k hk
        have hkln : k ≠ ln := fun he => hk (by simp [he])
        have hkrest : k ∉ rest := fun hr => hk (by simp [hr])
        rw [hout k hkrest, hpres k hkln]
      · intro l hl ld0 hld0
        rcases List.mem_cons.mp hl with rfl | hlr
        · rw [hld0] at hld
          cases hld
          rw [hout l hnotin, hsnap1, dictFind?_insert_self]
        · have hne : l ≠ ln := fun he => hnotin (he ▸ hlr)
          exact hin l hlr ld0 (by rw [hpres l hne, hld0])

theorem draw_layers_spec (td : List Snapshot) (img_dicts : List (List String))
    (layer_names : List String) (cm : String) (vr : Int × Int) (tind pind : Nat)
    (snap : Snapshot) (htd : td.get? tind = some snap)
    (hnd : layer_names.Nodup)
    (hc : snapContractB snap layer_names img_dicts pind = true) :
    ∃ out snapF,
      _draw_layers (Except.ok td) img_dicts layer_names cm vr tind pind =
        Except.ok out
      ∧ out.testDataAfter = td.set tind snapF
      ∧ (∀ k, k ∉ layer_names → dictFind? snapF k = dictFind? snap k)
      ∧ (∀ tg, dictFind? snap "target" = some (.arr tg) →
          ∀ ln ∈ layer_names, ∀ ld, dictFind? snap ln = some (.ldict ld) →
            dictFind? snapF ln = some (.ldict (dictInsert ld "targets" tg))) := by
  simp only [snapContractB, Bool.and_eq_true] at hc
  obtain ⟨⟨h1, h2⟩, h3⟩ := hc
  cases he : dictFind? snap "enum" with
  | none => rw [he] at h1; simp at h1
  | some e =>
    rw [he] at h1
    cases e with
    | arr a => simp at h1
    | ldict d => simp at h1
    | int n =>
      cases hl : dictFind? snap "loss" with
      | none => rw [hl] at h2; simp at h2
      | some l =>
        rw [hl] at h2
        cases l with
        | int m => simp at h2
        | ldict d => simp at h2
        | arr la =>
          simp only [Bool.and_eq_true, decide_eq_true_eq] at h2
          obtain ⟨h2a, h2b⟩ := h2
          cases ht : dictFind? snap "target" with
          | none => rw [ht] at h3; simp at h3
          | some t =>
            rw [ht] at h3
            cases t with
            | int m => simp at h3
            | ldict d => simp at h3
            | arr tg =>
              simp only [Bool.and_eq_true, List.all_eq_true] at h3
              obtain ⟨h3a, h3b⟩ := h3
              have hlay : ∀ ln ∈ layer_names,
                  ∃ ld, dictFind? snap ln = some (.ldict ld) :=
                fun ln hln => entryIsLdictB_spec (h3a ln hln)
              obtain ⟨m, snapF, hbuild, hm, hout, hin⟩ :=
                buildLdicts_spec layer_names snap tg hnd hlay
              have hloopHyp : ∀ pr ∈ img_dicts.zip layer_names,
                  ∃ ld, dictFind? m pr.2 = some ld
                    ∧ ∀ k ∈ pr.1, keyOkB ld pind k = true := by
                intro pr hpr
                have hln : pr.2 ∈ layer_names := (List.of_mem_zip hpr).2
                obtain ⟨ld, hld⟩ := hlay pr.2 hln
                have hb := h3b pr hpr
                rw [hld] at hb
                simp only [List.all_eq_true] at hb
                exact ⟨dictInsert ld "targets" tg, hm pr.2 hln ld hld, hb⟩
              obtain ⟨imgs, hloop⟩ :=
                drawLoop_ok img_dicts layer_names m cm vr pind hloopHyp
              have h2b' : pind < la.shape.head?.getD 0 := by simpa using h2b
              have hscal : scalarAt la pind = Except.ok (la.data.getD pind 0) := by
                simp [scalarAt, h2a, h2b']
              have htd' : td[tind]? = some snap := by simpa using htd
              refine ⟨⟨n, la.data.getD pind 0, imgs, td.set tind snapF⟩, snapF,
                ?_, rfl, hout, ?_⟩
              · simp [_draw_layers, htd', he, hl, ht, hbuild, hloop, hscal,
                  snapGet, getInt, getArr, Bind.bind, Except.bind]
              · intro tg' htg'
                simp only [Option.some.injEq, SnapEntry.arr.injEq] at htg'
                subst htg'
                exact hin

theorem dictInsert_append {α : Type} (d : List (String × α)) (k : String) (v : α)
    (h : k ∉ d.map Prod.fst) : dictInsert d k v = d ++ [(k, v)] := by
  induction d with
  | nil => rfl
  | cons p rest ih =>
      simp only [List.map_cons, List.mem_cons] at h
      push_neg at h
      have hne : p.1 ≠ k := fun he => h.1 he.symm
      simp [dictInsert, hne, ih h.2]

theorem foldl_dictInsert_map {α β : Type} (kf : β → String) (vf : β → α) :
    ∀ (l : List β) (d : List (String × α)),
      (∀ x ∈ l, kf x ∉ d.map Prod.fst) →
      l.Pairwise (fun a b => kf a ≠ kf b) →
      l.foldl (fun d x => dictInsert d (kf x) (vf x)) d =
        d ++ l.map (fun x => (kf x, vf x)) := by
  intro l
  induction l with
  | nil => intro d _ _; simp
  | cons x xs ih =>
      intro d hd hpw
      obtain ⟨hx, hpw'⟩ := List.pairwise_cons.mp hpw
      have hxd : kf x ∉ d.map Prod.fst := hd x (by simp)
      have hstep := dictInsert_append d (kf x) (vf x) hxd
      have hrest : ∀ y ∈ xs, kf y ∉ (d ++ [(kf x, vf x)]).map Prod.fst := by
        intro y hy
        simp only [List.map_append, List.mem_append, List.map_cons, List.map_nil,
          List.mem_singleton]
        push_neg
        exact ⟨hd y (by simp [hy]), fun he => (hx y hy) he.symm⟩
      calc (x :: xs).foldl (fun d x => dictInsert d (kf x) (vf x)) d
          = xs.foldl (fun d x => dictInsert d (kf x) (vf x)) (d ++ [(kf x, vf x)]) := by
            simp [hstep]
        _ = (d ++ [(kf x, vf x)]) ++ xs.map (fun y => (kf y, vf y)) :=
            ih _ hrest hpw'
        _ = d ++ (x :: xs).map (fun y => (kf y, vf y)) := by simp

theorem dictFind?_of_mem {α : Type} (l : List (String × α))
    (hp : l.Pairwise (fun a b => a.1 ≠ b.1)) (p : String × α) (hm : p ∈ l) :
    dictFind? l p.1 = some p.2 := by
  induction l with
  | nil => simp at hm
  | cons q rest ih =>
      obtain ⟨hq, hp'⟩ := List.pairwise_cons.mp hp
      rcases List.mem_cons.mp hm with rfl | hm'
      · simp [dictFind?]
      · have hne : q.1 ≠ p.1 := hq p hm'
        simp [dictFind?, hne, ih hp' hm']

theorem get?_set_ne {α : Type} (l : List α) (i j : Nat) (a : α) (h : j ≠ i) :
    (l.set i a).get? j = l.get? j := by
  induction l generalizing i j with
  | nil => simp
  | cons x xs ih =>
      cases i with
      | zero =>
          cases j with
          | zero => exact absurd rfl h
          | succ j' => simp [List.set]
      | succ i' =>
          cases j with
          | zero => simp [List.set]
          | succ j' => simpa [List.set] using ih i' j' (fun he => h (by omega))

theorem exists_mem_iff_mem_map_fst {α : Type} (l : List (String × α)) (k : String) :
    (∃ a, (k, a) ∈ l) ↔ k ∈ l.map Prod.fst := by
  constructor
  · rintro ⟨a, ha⟩
    exact List.mem_map.mpr ⟨(k, a), ha, rfl⟩
  · intro h
    obtain ⟨p, hp, he⟩ := List.mem_map.mp h
    rcases p with ⟨p1, p2⟩
    cases he
    exact ⟨p2, hp⟩

theorem axes_grid_keys (inp layer : Nat) (mode : Int) (t : Bool) :
    (_make_axes_grid inp layer mode t).map Prod.fst =
      ["input_", "weights", "biases", "net_input", "output"]
        ++ (if t then ["targets"] else [])
        ++ (if 0 < mode then ["gweights", "gbiases", "gnet_input", "goutput"] else [])
        ++ (if 0 < mode ∧ 1 < mode then ["sgweights", "sgbiases"] else []) := by
  by_cases h0 : 0 < mode <;> by_cases h1 : 1 < mode <;> cases t <;>
    simp [_make_axes_grid, ax_params, h0, h1]

theorem axes_grid_values (inp layer : Nat) (mode : Int) (t : Bool) :
    ∀ p ∈ _make_axes_grid inp layer mode t,
      (p.2 : NDArray).data = List.replicate ((p.2 : NDArray).shape.prod) 0
      ∧ (p.2 : NDArray).shape =
          (if p.1 = "input_" then [1, inp]
           else if p.1 = "weights" ∨ p.1 = "gweights" ∨ p.1 = "sgweights" then
             [layer, inp]
           else [layer, 1]) := by
  by_cases h0 : 0 < mode <;> by_cases h1 : 1 < mode <;> cases t <;>
    simp [_make_axes_grid, ax_params, h0, h1, List.forall_mem_cons, zerosND,
      Nat.mul_comm]

theorem targets_mem_axes_grid (inp layer : Nat) (mode : Int) (t : Bool) :
    ("targets" ∈ (_make_axes_grid inp layer mode t).map Prod.fst) ↔ t = true := by
  by_cases h0 : 0 < mode <;> by_cases h1 : 1 < mode <;> cases t <;>
    simp [axes_grid_keys, h0, h1]

theorem targets_contains_axes_grid (inp layer : Nat) (mode : Int) (t : Bool) :
    ((_make_axes_grid inp layer mode t).map Prod.fst).contains "targets" = t := by
  by_cases h0 : 0 < mode <;> by_cases h1 : 1 < mode <;> cases t <;>
    simp [_make_axes_grid, ax_params, h0, h1]

theorem disp_targs_cons (x y : String) (ys : List String) :
    disp_targs (x :: y :: ys) = false :: disp_targs (y :: ys) := by
  simp [disp_targs]

theorem view_layers_grids_cons (x y : String) (ys : List String)
    (dims : String → Nat × Nat) (mode : Int) :
    view_layers_grids (x :: y :: ys) dims mode =
      _make_axes_grid (dims x).1 (dims x).2 mode false ::
        view_layers_grids (y :: ys) dims mode := by
  simp [view_layers_grids, disp_targs_cons]

/-- C2: no function of the module catches exceptions.  When no filename of
the directory listing contains `.pkl`, `_make_logs_widget`'s `filenames[0]`
access raises and the error escapes; when `load_test_data` raises, the error
propagates unchanged out of `_draw_layers`; when a loaded snapshot lacks an
expected key (here `enum`), the `KeyError` escapes; no error value is
returned in place of the exception. -/
theorem c2_exceptions_propagate :
    (∀ (log_path : String) (listing : List String),
        listing.filter (fun f => strContains f ".pkl") = [] →
        ∃ e, _make_logs_widget log_path listing = Except.error e)
    ∧ (∀ (e : String) (img_dicts : List (List String)) (layer_names : List String)
          (cm : String) (vr : Int × Int) (tind pind : Nat),
        _draw_layers (Except.error e) img_dicts layer_names cm vr tind pind =
          Except.error e)
    ∧ (∀ (td : List Snapshot) (snap : Snapshot) (img_dicts : List (List String))
          (layer_names : List String) (cm : String) (vr : Int × Int) (tind pind : Nat),
        td.get? tind = some snap → dictFind? snap "enum" = none →
        _draw_layers (Except.ok td) img_dicts layer_names cm vr tind pind =
          Except.error "KeyError: enum") := by
  refine ⟨?_, ?_, ?_⟩
  · intro lp listing hfil
    exact ⟨"IndexError: list index out of range", by simp [_make_logs_widget, hfil]⟩
  · intro e imgs lns cm vr tind pind
    rfl
  · intro td snap imgs lns cm vr tind pind htd he
    have htd' : td[tind]? = some snap := by simpa using htd
    simp [_draw_layers, htd', snapGet, he, Bind.bind, Except.bind]

/-- Witness for C2: a listing with no `.pkl` file, a failing
`load_test_data`, and a snapshot missing `enum`. -/
theorem c2_witness :
    ((["notes.txt"] : List String).filter (fun f => strContains f ".pkl") = [])
    ∧ (∃ e, _make_logs_widget "logs" ["notes.txt"] = Except.error e)
    ∧ _draw_layers (Except.error "boom") [] [] "coolwarm" (-1, 1) 0 0 =
        Except.error "boom"
    ∧ ([([] : Snapshot)].get? 0 = some ([] : Snapshot))
    ∧ dictFind? ([] : Snapshot) "enum" = none
    ∧ _draw_layers (Except.ok [([] : Snapshot)]) [] [] "coolwarm" (-1, 1) 0 0 =
        Except.error "KeyError: enum" :=
  ⟨by decide,
   c2_exceptions_propagate.1 "logs" ["notes.txt"] (by decide),
   c2_exceptions_propagate.2.1 "boom" [] [] "coolwarm" (-1, 1) 0 0,
   by decide, by decide,
   c2_exceptions_propagate.2.2 [([] : Snapshot)] ([] : Snapshot) [] [] "coolwarm"
     (-1, 1) 0 0 (by decide) (by decide)⟩

/-- C3: the run-log dropdown offers exactly the listed filenames containing
`.pkl`, each label mapped to `joinp(log_path, filename)`, with the first
such filename's path as initial value. -/
theorem c3_logs_widget (log_path : String) (listing : List String)
    (hnd : listing.Nodup) (f0 : String) (rest : List String)
    (hfil : listing.filter (fun f => strContains f ".pkl") = f0 :: rest) :
    _make_logs_widget log_path listing =
      Except.ok ⟨(f0 :: rest).map (fun f => (f, joinp log_path f)), "Run log: ",
        joinp log_path f0⟩ := by
  have hnodupf : (listing.filter (fun f => strContains f ".pkl")).Nodup :=
    hnd.filter _
  rw [hfil] at hnodupf
  have hfold : (f0 :: rest).foldl (fun d f => dictInsert d f (joinp log_path f)) [] =
      (f0 :: rest).map (fun f => (f, joinp log_path f)) := by
    have h := foldl_dictInsert_map (fun f : String => f) (fun f => joinp log_path f)
      (f0 :: rest) [] (by simp) hnodupf
    simpa using h
  simp [_make_logs_widget, hfil, hfold, dictFind?]

/-- Witness for C3 on the listing `['a.pkl', 'b.txt', 'c.pkl']`. -/
theorem c3_witness :
    (["a.pkl", "b.txt", "c.pkl"] : List String).Nodup
    ∧ (["a.pkl", "b.txt", "c.pkl"] : List String).filter
        (fun f => strContains f ".pkl") = ["a.pkl", "c.pkl"]
    ∧ _make_logs_widget "logs" ["a.pkl", "b.txt", "c.pkl"] =
        Except.ok ⟨(["a.pkl", "c.pkl"] : List String).map
            (fun f => (f, joinp "logs" f)),
          "Run log: ", joinp "logs" "a.pkl"⟩ :=
  ⟨by decide, by decide,
   c3_logs_widget "logs" ["a.pkl", "b.txt", "c.pkl"] (by decide) "a.pkl" ["c.pkl"]
     (by decide)⟩

/-- C4 counterexample: for a run log whose epoch list is `[1]`, the slider
is built with `value = epochs[0] = 1` but range `0..0`, so the initial
value is not a valid position of the slider's index range (and tind 1 does
not address the first logged epoch). -/
theorem c4_counterexample :
    step_widget [1] = Except.ok ⟨1, 0, 0, 1⟩
    ∧ Except.map (fun w => decide (w.min ≤ w.value ∧ w.value ≤ w.max))
        (step_widget [1]) = Except.ok false := by decide

/-- C4 (amended): the slider's range is `0 .. len(epochs)-1` with step 1 and
its initial value is `epochs[0]`; that value is a valid position — and the
initially rendered snapshot is the first logged epoch — when the first
logged epoch number is 0 (it need not be in general). -/
theorem c4_step_widget (epochs : List Int) (e0 : Int) (rest : List Int)
    (h : epochs = e0 :: rest) :
    step_widget epochs = Except.ok ⟨e0, 0, (epochs.length : Int) - 1, 1⟩
    ∧ (e0 = 0 → 0 ≤ e0 ∧ e0 ≤ (epochs.length : Int) - 1)
    ∧ (e0 = 0 → ∀ (td : List Snapshot) (s : Snapshot) (r : List Snapshot),
        td = s :: r → td.get? e0.toNat = some s) := by
  subst h
  refine ⟨rfl, ?_, ?_⟩
  · rintro rfl
    refine ⟨le_refl 0, ?_⟩
    simp only [List.length_cons]
    omega
  · rintro rfl td s r rfl
    rfl

/-- Witness for C4 on the epoch list `[0, 5]`. -/
theorem c4_witness :
    (([0, 5] : List Int) = 0 :: [5])
    ∧ (step_widget [0, 5] = Except.ok ⟨0, 0, (2 : Int) - 1, 1⟩
        ∧ ((0 : Int) = 0 → 0 ≤ (0 : Int) ∧ (0 : Int) ≤ (2 : Int) - 1)
        ∧ ((0 : Int) = 0 → ∀ (td : List Snapshot) (s : Snapshot) (r : List Snapshot),
            td = s :: r → td.get? (0 : Int).toNat = some s)) :=
  ⟨rfl, c4_step_widget [0, 5] 0 [5] rfl⟩

/-- C5: under the collaborator contract — the loaded run log yields a
snapshot at `tind` that satisfies `snapContractB` (it has `enum`, a
pattern-indexed `loss` with `pind` in range, `target`, and a layer
dictionary per displayed layer holding every key of that layer's image
grid, with `pind` in range of every pattern-indexed tensor) — every
dictionary lookup and array index of `_draw_layers` is in bounds and the
call completes without raising. -/
theorem c5_draw_layers_total (td : List Snapshot) (img_dicts : List (List String))
    (layer_names : List String) (cm : String) (vr : Int × Int) (tind pind : Nat)
    (snap : Snapshot) (htd : td.get? tind = some snap) (hnd : layer_names.Nodup)
    (hc : snapContractB snap layer_names img_dicts pind = true) :
    ∃ out, _draw_layers (Except.ok td) img_dicts layer_names cm vr tind pind =
      Except.ok out := by
  obtain ⟨out, snapF, heq, -, -, -⟩ :=
    draw_layers_spec td img_dicts layer_names cm vr tind pind snap htd hnd hc
  exact ⟨out, heq⟩

/-- Witness for C5 on a concrete one-layer run log. -/
theorem c5_witness :
    (tdEx.get? 0 = some snapEx)
    ∧ (["hidden"] : List String).Nodup
    ∧ (snapContractB snapEx ["hidden"] imgKeysEx 1 = true)
    ∧ (∃ out, _draw_layers (Except.ok tdEx) imgKeysEx ["hidden"] "coolwarm"
        (-1, 1) 0 1 = Except.ok out) :=
  ⟨by decide, by decide, by decide,
   c5_draw_layers_total tdEx imgKeysEx ["hidden"] "coolwarm" (-1, 1) 0 1 snapEx
     (by decide) (by decide) (by decide)⟩

/-- C6 counterexample: `_draw_layers` does not leave the contents of the
loaded run-log snapshots unchanged — on a concrete run log the final
contents of the loaded snapshots differ from the loaded ones, because
`snap_ldicts[layer_name]['targets'] = targ` inserts a `targets` entry into
the snapshot's layer dictionary through the alias. -/
theorem c6_counterexample :
    Except.map DrawOutput.testDataAfter
        (_draw_layers (Except.ok tdEx) imgKeysEx ["hidden"] "coolwarm" (-1, 1) 0 1)
      ≠ Except.ok tdEx := by decide

/-- C6 (amended): `_draw_layers` performs no persistence and, apart from
inserting the snapshot's `target` tensor under the key `targets` into each
displayed layer's dictionary of the freshly loaded snapshot (through the
`snap_ldicts` alias), it leaves the loaded run-log snapshots unchanged:
snapshots at other epochs and entries at non-layer keys are untouched, and
it only reads the tensor values. -/
theorem c6_mutation_localized (td : List Snapshot) (img_dicts : List (List String))
    (layer_names : List String) (cm : String) (vr : Int × Int) (tind pind : Nat)
    (snap : Snapshot) (htd : td.get? tind = some snap) (hnd : layer_names.Nodup)
    (hc : snapContractB snap layer_names img_dicts pind = true) :
    ∃ out snapF,
      _draw_layers (Except.ok td) img_dicts layer_names cm vr tind pind =
        Except.ok out
      ∧ out.testDataAfter = td.set tind snapF
      ∧ (∀ j, j ≠ tind → (td.set tind snapF).get? j = td.get? j)
      ∧ (∀ k, k ∉ layer_names → dictFind? snapF k = dictFind? snap k)
      ∧ (∀ tg, dictFind? snap "target" = some (.arr tg) →
          ∀ ln ∈ layer_names, ∀ ld, dictFind? snap ln = some (.ldict ld) →
            dictFind? snapF ln = some (.ldict (dictInsert ld "targets" tg))) := by
  obtain ⟨out, snapF, heq, hafter, hother, hlayers⟩ :=
    draw_layers_spec td img_dicts layer_names cm vr tind pind snap htd hnd hc
  exact ⟨out, snapF, heq, hafter,
    fun j hj => get?_set_ne td tind j snapF hj, hother, hlayers⟩

/-- Witness for C6 on a concrete one-layer run log. -/
theorem c6_witness :
    (tdEx.get? 0 = some snapEx)
    ∧ (["hidden"] : List String).Nodup
    ∧ (snapContractB snapEx ["hidden"] imgKeysEx 1 = true)
    ∧ (∃ out snapF,
        _draw_layers (Except.ok tdEx) imgKeysEx ["hidden"] "coolwarm" (-1, 1) 0 1 =
          Except.ok out
        ∧ out.testDataAfter = tdEx.set 0 snapF
        ∧ (∀ j, j ≠ 0 → (tdEx.set 0 snapF).get? j = tdEx.get? j)
        ∧ (∀ k, k ∉ (["hidden"] : List String) →
            dictFind? snapF k = dictFind? snapEx k)
        ∧ (∀ tg, dictFind? snapEx "target" = some (.arr tg) →
            ∀ ln ∈ (["hidden"] : List String), ∀ ld,
              dictFind? snapEx ln = some (.ldict ld) →
              dictFind? snapF ln = some (.ldict (dictInsert ld "targets" tg)))) :=
  ⟨by decide, by decide, by decide,
   c6_mutation_localized tdEx imgKeysEx ["hidden"] "coolwarm" (-1, 1) 0 1 snapEx
     (by decide) (by decide) (by decide)⟩

/-- C7: `view_layers` wires exactly the four interactive slice-selecting
controls (colormap dropdown, value-range slider, epoch/step index slider,
pattern selector) plus the run-log dropdown as the non-fixed arguments of
`_draw_layers` via `interactive_output`; the fixed arguments are
`img_dicts` and `layer_names`, and the controls dictionary covers exactly
the parameter list of `_draw_layers`, so nothing else parameterizes the
rendering. -/
theorem c7_controls_wiring :
    view_layers_render = @_draw_layers
    ∧ controls_dict.map Prod.fst = draw_layers_params
    ∧ controls_dict.filter (fun p => p.2 ≠ ControlKind.fixedC) =
        [("runlog_path", ControlKind.dropdownC), ("colormap", ControlKind.dropdownC),
         ("vrange", ControlKind.rangeSliderC), ("tind", ControlKind.sliderC),
         ("pind", ControlKind.selectC)]
    ∧ (controls_dict.filter (fun p => p.2 = ControlKind.fixedC)).map Prod.fst =
        ["img_dicts", "layer_names"] :=
  ⟨rfl, by decide, by decide, by decide⟩

/-- C8: the panels of `_make_axes_grid` are exactly the five feedforward
panels, plus `targets` iff `target` is set, plus the four gradient panels
iff `mode > 0`, plus the two cumulative-gradient panels iff `mode > 1`
(monotone in `mode`); every panel starts as a zero matrix of the declared
`(rows, cols)` shape for its key. -/
theorem c8_axes_grid_contents (inp_size layer_size : Nat) (mode : Int)
    (target : Bool) (k : String) :
    ((∃ a, (k, a) ∈ _make_axes_grid inp_size layer_size mode target) ↔
      (k ∈ (["input_", "weights", "biases", "net_input", "output"] : List String)
        ∨ (target = true ∧ k = "targets")
        ∨ (0 < mode ∧
            k ∈ (["gweights", "gbiases", "gnet_input", "goutput"] : List String))
        ∨ (1 < mode ∧ k ∈ (["sgweights", "sgbiases"] : List String))))
    ∧ (∀ a, (k, a) ∈ _make_axes_grid inp_size layer_size mode target →
        a.data = List.replicate (a.shape.prod) 0
        ∧ a.shape = (if k = "input_" then [1, inp_size]
             else if k = "weights" ∨ k = "gweights" ∨ k = "sgweights" then
               [layer_size, inp_size]
             else [layer_size, 1])) := by
  constructor
  · rw [exists_mem_iff_mem_map_fst, axes_grid_keys]
    by_cases h0 : 0 < mode
    · by_cases h1 : 1 < mode <;> cases target <;> simp [h0, h1] <;> tauto
    · have h1 : ¬(1 < mode) := by omega
      cases target <;> (simp [h0, h1]; try tauto)
  · intro a ha
    have h := axes_grid_values inp_size layer_size mode target (k, a) ha
    simpa using h

/-- C9: `view_layers` requests a `targets` panel for exactly one layer
grid — the last one: the grid of the final layer name contains a `targets`
panel and no other grid does. -/
theorem c9_targets_only_last (layer_names : List String)
    (dims : String → Nat × Nat) (mode : Int) (h : layer_names ≠ []) :
    (view_layers_grids layer_names dims mode).map
        (fun g => (g.map Prod.fst).contains "targets") =
      List.replicate (layer_names.length - 1) false ++ [true] := by
  induction layer_names with
  | nil => exact absurd rfl h
  | cons x xs ih =>
      cases xs with
      | nil =>
          show [((_make_axes_grid (dims x).1 (dims x).2 mode true).map
            Prod.fst).contains "targets"] = [true]
          rw [targets_contains_axes_grid]
      | cons y ys =>
          have hih := ih (by simp)
          rw [view_layers_grids_cons]
          simp only [List.map_cons, hih, targets_contains_axes_grid]
          simp [List.replicate_succ]

/-- Witness for C9 on two layers. -/
theorem c9_witness :
    ((["a", "b"] : List String) ≠ [])
    ∧ (view_layers_grids ["a", "b"] (fun _ => (1, 2)) 0).map
        (fun g => (g.map Prod.fst).contains "targets") =
      List.replicate ((["a", "b"] : List String).length - 1) false ++ [true] :=
  ⟨by decide, c9_targets_only_last ["a", "b"] (fun _ => (1, 2)) 0 (by decide)⟩

/-- C10 counterexample: on the duplicate pattern-option list `['x', 'x']`
the options dictionary collapses the two labels, mapping the 0-th option's
label `'x'` to index 1, not 0. -/
theorem c10_counterexample :
    (["x", "x"] : List String).get? 0 = some "x"
    ∧ dictFind? (pattern_widget ["x", "x"]).options "x" = some 1
    ∧ dictFind? (pattern_widget ["x", "x"]).options "x" ≠ some 0 := by decide

/-- C10 (amended): for every non-empty pattern-option list with distinct
labels, the selector maps the `i`-th option label to the index `i` for
every position, its initial value is index 0, and it shows
`min(10, number of options)` rows. -/
theorem c10_pattern_widget (opts : List String) (hnd : opts.Nodup)
    (_hne : opts ≠ []) :
    (∀ i (h : i < opts.length),
        dictFind? (pattern_widget opts).options (opts.get ⟨i, h⟩) = some i)
    ∧ (pattern_widget opts).value = 0
    ∧ (pattern_widget opts).rows = min 10 opts.length := by
  refine ⟨?_, rfl, rfl⟩
  have h0 : (opts.enum.map Prod.snd).Nodup := by
    rw [List.enum_map_snd]; exact hnd
  have hpw : opts.enum.Pairwise (fun a b => a.2 ≠ b.2) := List.pairwise_map.mp h0
  have hmap : options_map opts = opts.enum.map (fun x => (x.2, x.1)) := by
    have h := foldl_dictInsert_map (fun x : Nat × String => x.2)
      (fun x : Nat × String => x.1) opts.enum [] (by simp) hpw
    simpa [options_map] using h
  intro i h
  have hi : i < opts.enum.length := by simpa using h
  have hget : opts.enum.get ⟨i, hi⟩ = (i, opts.get ⟨i, h⟩) := by
    simp [List.getElem_enum]
  have hmem : ((opts.get ⟨i, h⟩ : String), i) ∈
      opts.enum.map (fun x => (x.2, x.1)) := by
    refine List.mem_map.mpr ⟨(i, opts.get ⟨i, h⟩), ?_, rfl⟩
    rw [← hget]
    exact List.get_mem _ _ _
  have hpw2 : (opts.enum.map (fun x => (x.2, x.1))).Pairwise
      (fun a b => a.1 ≠ b.1) := List.pairwise_map.mpr hpw
  have hfind := dictFind?_of_mem _ hpw2 (opts.get ⟨i, h⟩, i) hmem
  simpa [pattern_widget, hmap] using hfind

/-- Witness for C10 on the distinct option list `['x', 'y']`. -/
theorem c10_witness :
    (["x", "y"] : List String).Nodup
    ∧ (["x", "y"] : List String) ≠ []
    ∧ dictFind? (pattern_widget ["x", "y"]).options "y" = some 1
    ∧ (pattern_widget ["x", "y"]).value = 0
    ∧ (pattern_widget ["x", "y"]).rows = 2 :=
  ⟨by decide, by decide,
   by
     have h := (c10_pattern_widget ["x", "y"] (by decide) (by decide)).1 1 (by decide)
     exact h,
   (c10_pattern_widget ["x", "y"] (by decide) (by decide)).2.1,
   (c10_pattern_widget ["x", "y"] (by decide) (by decide)).2.2⟩

end FFBP

